import Mathlib

/-!
Verification of the segmentation and comparison engine of CompareDoc
(src/app.py) against its natural-language specification.

The Python source is shallowly embedded below.  Python `dict` (insertion
ordered, unique keys) is modelled as an association list `List (String × α)`
whose update operation replaces in place and whose insert appends at the end.
Python strings are modelled as Lean `String` (a wrapper around `List Char`);
the helpers `pySplitlines`, `pyStrip`, `pyLower`, `pyToInt` model
`str.splitlines`, `str.strip`, `str.lower` and `int(...)`.  Unicode-only
refinements of these helpers (non-ASCII digits and case mappings) are outside
the modelled character classes; all claims range over the embedded semantics.
-/

/-- Characters on which Python `str.splitlines` splits (`\n`, `\r`, `\r\n`
is handled separately, plus the vertical tab, form feed, file/group/record
separators, NEL and the Unicode line/paragraph separators). -/
def isLineBoundary (c : Char) : Bool :=
  c == '\n' || c == '\r' || c == '\x0b' || c == '\x0c' ||
  c == '\x1c' || c == '\x1d' || c == '\x1e' || c == '\x85' ||
  c == ' ' || c == ' '

/-- Whitespace in the sense of Python `str.strip()` / `str.isspace()` (also
used for the regex class `\s`, which coincides on these characters). -/
def pyIsSpace (c : Char) : Bool :=
  c == ' ' || c == '\t' || c == '\n' || c == '\r' || c == '\x0b' || c == '\x0c' ||
  c == '\x1c' || c == '\x1d' || c == '\x1e' || c == '\x1f' || c == '\x85' ||
  c == '\xa0' || c == ' ' ||
  (decide (' ' ≤ c) && decide (c ≤ ' ')) ||
  c == ' ' || c == ' ' || c == ' ' || c == ' ' || c == '　'

/-- Worker for `pySplitlines`: scan the characters, emitting a line at every
boundary; `\r\n` counts as a single boundary; a final unterminated line is
emitted only when nonempty (so `"a\n".splitlines() = ["a"]` and
`"".splitlines() = []`, as in Python). -/
def pySplitlinesAux : List Char → List Char → List String
  | [], acc => if acc.isEmpty then [] else [String.mk acc.reverse]
  | '\r' :: '\n' :: rest, acc => String.mk acc.reverse :: pySplitlinesAux rest []
  | c :: rest, acc =>
    if isLineBoundary c then String.mk acc.reverse :: pySplitlinesAux rest []
    else pySplitlinesAux rest (c :: acc)

/-- Python `text.splitlines()`. -/
def pySplitlines (s : String) : List String :=
  pySplitlinesAux s.data []

/-- Python `s.strip()`: remove leading and trailing whitespace. -/
def pyStrip (s : String) : String :=
  String.mk (((s.data.dropWhile pyIsSpace).reverse.dropWhile pyIsSpace).reverse)

/-- Python `s.lower()` (ASCII case mapping). -/
def pyLower (s : String) : String :=
  String.mk (s.data.map Char.toLower)

/-- `listStartsWith s t = true` iff `t` is a prefix of `s`
(Python `s.startswith(t)` on the underlying characters). -/
def listStartsWith : List Char → List Char → Bool
  | _, [] => true
  | [], _ :: _ => false
  | c :: cs, d :: ds => c == d && listStartsWith cs ds

/-- Python `line.lower().startswith(tag)`: the case-insensitive field-prefix
test used on every oracle response line (src/app.py lines 128-134). -/
def lineHasTag (tag line : String) : Bool :=
  listStartsWith (pyLower line).data tag.data

/-- Digit-run parser for `pyToInt`: digits with single underscores allowed
between digits (Python `int` literal grammar); the Bool records whether the
previous character was a digit. -/
def digitsVal : List Char → Nat → Bool → Option Nat
  | [], acc, pd => if pd then some acc else none
  | c :: cs, acc, pd =>
    if c.isDigit then digitsVal cs (acc * 10 + (c.toNat - 48)) true
    else if c == '_' && pd then digitsVal cs acc false
    else none

/-- Python `int(s)` on a decimal string: surrounding whitespace tolerated,
optional sign, ASCII digits with underscore separators; `none` models the
`ValueError` that the source catches with a bare `except`. -/
def pyToInt (s : String) : Option Int :=
  match (pyStrip s).data with
  | '+' :: cs => (digitsVal cs 0 false).map (fun n => (n : Int))
  | '-' :: cs => (digitsVal cs 0 false).map (fun n => -(n : Int))
  | cs => (digitsVal cs 0 false).map (fun n => (n : Int))

/-- Python `s.replace("%", "")`: remove every percent sign. -/
def dropPercents (s : String) : String :=
  String.mk (s.data.filter (fun c => c != '%'))

/-- The characters after the first `:`; `none` when there is no colon.
Models `line.split(":", 1)[1]`; every use below is guarded by a prefix test
that guarantees a colon is present. -/
def splitColonTail : List Char → Option (List Char)
  | [] => none
  | c :: cs => if c == ':' then some cs else splitColonTail cs

/-- `line.split(":", 1)[1]` as a total function (defaulting to the empty
string in the unreachable no-colon case). -/
def colonTail (l : String) : String :=
  String.mk ((splitColonTail l.data).getD [])

/-- `line.split(":", 1)[1].strip()`: the value carried by a recognized
oracle-response field line. -/
def fieldVal (l : String) : String :=
  pyStrip (colonTail l)

/-- `int(line.split(":", 1)[1].strip().replace('%', ''))` with the bare
`except` that resets the value to `0` on parse failure
(src/app.py lines 135-138). -/
def pctLineVal (l : String) : Int :=
  (pyToInt (dropPercents (fieldVal l))).getD 0

/-- The regex `^\s*\d+\.` of src/app.py line 77 (applied to the stripped
line): optional whitespace, one or more ASCII digits, then a period. -/
def matchNumDot (cs : List Char) : Bool :=
  let rest := cs.dropWhile pyIsSpace
  !(rest.takeWhile Char.isDigit).isEmpty &&
    ((rest.dropWhile Char.isDigit).head? == some '.')

/-- The regex `^[A-Z][A-Za-z\s]+:$` of src/app.py line 77: an uppercase
letter, then at least one letter or whitespace character, then a colon
ending the string. -/
def matchTitleColon : List Char → Bool
  | [] => false
  | c :: rest =>
    c.isUpper && decide (2 ≤ rest.length) && (rest.getLast? == some ':') &&
      rest.dropLast.all (fun d => d.isAlpha || pyIsSpace d)

/-- A stripped line is a heading candidate iff it matches one of the two
heading regexes (src/app.py line 77). -/
def isHeading (s : String) : Bool :=
  matchNumDot s.data || matchTitleColon s.data

/-- The trimmed texts of the heading-candidate lines of a document, in
order.  Used to phrase distinctness hypotheses about a document's headings. -/
def headingStrips (lines : List String) : List String :=
  (lines.filter (fun l => isHeading (pyStrip l))).map pyStrip

/-- Python `d.get(k)` on an insertion-ordered dict modelled as an
association list with unique keys: first (only) binding of the key. -/
def dictGet : List (String × α) → String → Option α
  | [], _ => none
  | (k, v) :: rest, key => if k = key then some v else dictGet rest key

/-- Python `d[k] = v`: replace the binding in place when the key exists
(keeping its position in insertion order), otherwise append it at the end. -/
def dictSet : List (String × α) → String → α → List (String × α)
  | [], key, val => [(key, val)]
  | (k, v) :: rest, key, val =>
    if k = key then (k, val) :: rest else (k, v) :: dictSet rest key val

/-- One iteration of the scan loop of `segment_document`
(src/app.py lines 76-80): on a heading candidate, move `current_section` to
the stripped line and reset that section's buffer; then append the raw line
to the current section's buffer. -/
def segStep (st : String × List (String × List String)) (line : String) :
    String × List (String × List String) :=
  let stripped := pyStrip line
  let next := if isHeading stripped then (stripped, dictSet st.2 stripped []) else st
  (next.1, dictSet next.2 next.1 ((dictGet next.2 next.1).getD [] ++ [line]))

/-- The per-section line buffers built by `segment_document` before the
final join (the `segments` dict of src/app.py lines 73-80, starting from
`current_section = "Header"` with an empty buffer). -/
def segmentBuffers (text : String) : List (String × List String) :=
  ((pySplitlines text).foldl segStep ("Header", [("Header", [])])).2

/-- Python `"\n".join(ls)`. -/
def joinNL : List String → String
  | [] => ""
  | [s] => s
  | s :: ss => s ++ "\n" ++ joinNL ss

/-- `segment_document` (src/app.py lines 71-81): scan the lines building
per-section buffers, then join each buffer with newlines. -/
def segment_document (text : String) : List (String × String) :=
  (segmentBuffers text).map (fun kv => (kv.1, joinNL kv.2))

/-- One entry of the comparison report (src/app.py lines 141-148). -/
structure ComparisonRecord where
  template : String
  filled : String
  status : String
  analysis : String
  remediation : String
  match_percent : Int
  deriving DecidableEq, Repr

/-- The four local variables of the oracle-response parsing loop
(src/app.py line 126). -/
structure ParsedOracle where
  status : String
  reason : String
  remediation : String
  match_percent : Int
  deriving DecidableEq, Repr

/-- One iteration of the response-parsing loop (src/app.py lines 127-138):
each line is tested case-insensitively against the four recognized field
prefixes, and a match overwrites that field with the text after the first
colon (stripped; the match percentage additionally drops percent signs and
is parsed as an integer, defaulting to 0 on failure). -/
def oracleStep (st : ParsedOracle) (line : String) : ParsedOracle :=
  if lineHasTag "status:" line then { st with status := fieldVal line }
  else if lineHasTag "reason:" line then { st with reason := fieldVal line }
  else if lineHasTag "remediation:" line then { st with remediation := fieldVal line }
  else if lineHasTag "match percentage:" line then { st with match_percent := pctLineVal line }
  else st

/-- The oracle-response parsing of src/app.py lines 125-140: fold the
parsing loop over the response's lines starting from the defaults
`("Other Issue", "", "", 0)`, then replace an empty remediation by
`"None provided."`. -/
def parseOracle (resp : String) : ParsedOracle :=
  let parsed := (pySplitlines resp).foldl oracleStep
    { status := "Other Issue", reason := "", remediation := "", match_percent := 0 }
  if parsed.remediation = "" then { parsed with remediation := "None provided." } else parsed

/-- The per-section body of `compare_segments` (src/app.py lines 88-148),
instrumented with the number of oracle invocations the branch performs
(the semantic-judgment branch contains the single `client.chat.completions
.create` call site, so it counts 1; the other two branches count 0).
`oracleResp` is the text the oracle returns when it is invoked. -/
def compareRecord (content filledContent oracleResp : String) :
    ComparisonRecord × Nat :=
  if pyStrip filledContent = "" then
    (⟨content, filledContent, "Missing", "This section is missing in the filled document.",
      "Please provide content for this section.", 0⟩, 0)
  else if pyStrip filledContent = pyStrip content then
    (⟨content, filledContent, "Sufficient",
      "This section is sufficiently filled and matches the template.",
      "None needed.", 100⟩, 0)
  else
    let p := parseOracle oracleResp
    (⟨content, filledContent, p.status, p.reason, p.remediation, p.match_percent⟩, 1)

/-- `compare_segments` (src/app.py lines 84-149): iterate the template's
sections in order; the filled counterpart is `filled.get(section, "")`; the
oracle is modelled as a function from the two section texts to the response
text of the judgment request. -/
def compare_segments (template filled : List (String × String))
    (oracle : String → String → String) : List (String × ComparisonRecord) :=
  template.map (fun sc =>
    let filledContent := (dictGet filled sc.1).getD ""
    (sc.1, (compareRecord sc.2 filledContent (oracle sc.2 filledContent)).1))

/-- Value produced by scanning lines left to right and overwriting with
`f l` at every line satisfying `p`; i.e. `f` of the last matching line,
else the default.  Mirrors the overwrite structure of the parsing loop. -/
def lastUpd (p : String → Bool) (f : String → α) (d : α) : List String → α
  | [] => d
  | l :: ls => lastUpd p f (if p l then f l else d) ls

/-- The last line of the response that carries the given field prefix. -/
def lastTagged (tag resp : String) : Option String :=
  ((pySplitlines resp).filter (lineHasTag tag)).getLast?

/-- Status the parser ends with, described directly: the (stripped) value
of the last `status:` line, or `"Other Issue"` when there is none. -/
def oracleStatusOf (resp : String) : String :=
  match lastTagged "status:" resp with
  | some l => fieldVal l
  | none => "Other Issue"

/-- Reason/analysis the parser ends with: value of the last `reason:` line,
or the empty string. -/
def oracleReasonOf (resp : String) : String :=
  match lastTagged "reason:" resp with
  | some l => fieldVal l
  | none => ""

/-- Remediation the parser ends with: value of the last `remediation:`
line; an absent or empty value becomes `"None provided."`. -/
def oracleRemediationOf (resp : String) : String :=
  let r := match lastTagged "remediation:" resp with
    | some l => fieldVal l
    | none => ""
  if r = "" then "None provided." else r

/-- Match percent the parser ends with: parsed value of the last
`match percentage:` line, or 0. -/
def oraclePctOf (resp : String) : Int :=
  match lastTagged "match percentage:" resp with
  | some l => pctLineVal l
  | none => 0

/-- Template text of the end-to-end scenario of the spec (§8). -/
def c5Template : String := "1. Scope:\nDescribe the work.\n2. Budget:\nState the amount."

/-- Filled text of the end-to-end scenario: identical for section
`"1. Scope:"` and blank (absent) for `"2. Budget:"`. -/
def c5Filled : String := "1. Scope:\nDescribe the work."

/-! ### Association-list (Python dict) lemmas -/

theorem dictGet_dictSet_self (d : List (String × α)) (k : String) (v : α) :
    dictGet (dictSet d k v) k = some v := by
  induction d with
  | nil => simp [dictGet, dictSet]
  | cons p rest ih =>
    obtain ⟨a, b⟩ := p
    by_cases h : a = k
    · simp [dictSet, dictGet, h]
    · simp [dictSet, dictGet, h, ih]

theorem dictGet_dictSet_ne (d : List (String × α)) (k k' : String) (v : α)
    (h : k ≠ k') : dictGet (dictSet d k v) k' = dictGet d k' := by
  induction d with
  | nil => simp [dictGet, dictSet, h]
  | cons p rest ih =>
    obtain ⟨a, b⟩ := p
    by_cases ha : a = k
    · subst ha; simp [dictSet, dictGet, h]
    · simp [dictSet, dictGet, ha, ih]

theorem dictGet_of_not_mem (d : List (String × α)) (k : String)
    (h : k ∉ d.map Prod.fst) : dictGet d k = none := by
  induction d with
  | nil => rfl
  | cons p rest ih =>
    obtain ⟨a, b⟩ := p
    simp only [List.map_cons, List.mem_cons] at h
    push_neg at h
    simp [dictGet, Ne.symm h.1, ih h.2]

theorem dictSet_of_not_mem (d : List (String × α)) (k : String) (v : α)
    (h : k ∉ d.map Prod.fst) : dictSet d k v = d ++ [(k, v)] := by
  induction d with
  | nil => rfl
  | cons p rest ih =>
    obtain ⟨a, b⟩ := p
    simp only [List.map_cons, List.mem_cons] at h
    push_neg at h
    simp [dictSet, Ne.symm h.1, ih h.2]

theorem dictGet_append_of_not_mem (d e : List (String × α)) (k : String)
    (h : k ∉ d.map Prod.fst) : dictGet (d ++ e) k = dictGet e k := by
  induction d with
  | nil => rfl
  | cons p rest ih =>
    obtain ⟨a, b⟩ := p
    simp only [List.map_cons, List.mem_cons] at h
    push_neg at h
    simp [dictGet, Ne.symm h.1, ih h.2]

theorem dictSet_append_last (d : List (String × α)) (k : String) (x v : α)
    (h : k ∉ d.map Prod.fst) : dictSet (d ++ [(k, x)]) k v = d ++ [(k, v)] := by
  induction d with
  | nil => simp [dictSet]
  | cons p rest ih =>
    obtain ⟨a, b⟩ := p
    simp only [List.map_cons, List.mem_cons] at h
    push_neg at h
    simp [dictSet, Ne.symm h.1, ih h.2]

theorem dictGet_map (d : List (String × α)) (f : α → β) (k : String) :
    dictGet (d.map (fun kv => (kv.1, f kv.2))) k = (dictGet d k).map f := by
  induction d with
  | nil => rfl
  | cons p rest ih =>
    obtain ⟨a, b⟩ := p
    by_cases h : a = k
    · simp [dictGet, h]
    · simp [dictGet, h, ih]

/-- The sentinel section name is not itself a heading candidate, so a
heading line can never collide with the `"Header"` key. -/
theorem isHeading_header : isHeading "Header" = false := by decide

/-! ### Claim C10: documents with no heading candidate -/

theorem foldl_segStep_no_heading (lines : List String) :
    ∀ acc : List String, (∀ l ∈ lines, isHeading (pyStrip l) = false) →
    lines.foldl segStep ("Header", [("Header", acc)])
      = ("Header", [("Header", acc ++ lines)]) := by
  induction lines with
  | nil => intro acc _; simp
  | cons l ls ih =>
    intro acc h
    have hl : isHeading (pyStrip l) = false := h l (by simp)
    have hstep : segStep ("Header", [("Header", acc)]) l
        = ("Header", [("Header", acc ++ [l])]) := by
      simp [segStep, hl, dictGet, dictSet]
    rw [List.foldl_cons, hstep, ih (acc ++ [l]) (fun x hx => h x (by simp [hx]))]
    simp

/-- Claim C10: for every input text in which no line is a heading candidate,
`segment_document` returns a single-entry map keyed `"Header"` whose value is
the input up to newline normalization (its lines joined by `"\n"`); being a
total Lean function evaluating to this value on every such input, it in
particular never fails, the empty string included. -/
theorem c10_no_headings (text : String)
    (h : ∀ l ∈ pySplitlines text, isHeading (pyStrip l) = false) :
    segment_document text = [("Header", joinNL (pySplitlines text))] := by
  unfold segment_document segmentBuffers
  rw [foldl_segStep_no_heading (pySplitlines text) [] h]
  simp

theorem c10_no_headings_witness :
    segment_document "hello\nworld" = [("Header", "hello\nworld")]
    ∧ segment_document "" = [("Header", "")] :=
  ⟨(c10_no_headings "hello\nworld" (by decide)).trans (by decide),
   (c10_no_headings "" (by decide)).trans (by decide)⟩

/-! ### Claim C1: line coverage of the segmentation -/

theorem headingStrips_cons_pos (l : String) (ls : List String)
    (h : isHeading (pyStrip l) = true) :
    headingStrips (l :: ls) = pyStrip l :: headingStrips ls := by
  simp [headingStrips, List.filter_cons, h]

theorem headingStrips_cons_neg (l : String) (ls : List String)
    (h : isHeading (pyStrip l) = false) :
    headingStrips (l :: ls) = headingStrips ls := by
  simp [headingStrips, List.filter_cons, h]

theorem mem_headingStrips (l : String) (ls : List String)
    (hm : l ∈ ls) (hh : isHeading (pyStrip l) = true) :
    pyStrip l ∈ headingStrips ls := by
  exact List.mem_map_of_mem pyStrip (List.mem_filter.mpr ⟨hm, hh⟩)

/-- Fold invariant of the segmentation scan.  The dict is decomposed as
`pre ++ [(cur, buf)]` with `cur` the current section sitting at the end;
provided the keys are distinct, no heading of the remaining lines collides
with an existing key, the headings are pairwise distinct, and every buffer
so far is nonempty, then processing the remaining lines appends exactly
those lines (in order) to the flattened buffers, and keeps all buffers
nonempty. -/
theorem seg_step_inv (lines : List String) :
    ∀ (cur : String) (pre : List (String × List String)) (buf : List String),
    ((pre ++ [(cur, buf)]).map Prod.fst).Nodup →
    (∀ l ∈ lines, isHeading (pyStrip l) = true →
      pyStrip l ∉ (pre ++ [(cur, buf)]).map Prod.fst) →
    (headingStrips lines).Nodup →
    (∀ b ∈ (pre ++ [(cur, buf)]).map Prod.snd, b ≠ []) →
    (((lines.foldl segStep (cur, pre ++ [(cur, buf)])).2.map Prod.snd).flatten
        = ((pre ++ [(cur, buf)]).map Prod.snd).flatten ++ lines)
    ∧ (∀ b ∈ (lines.foldl segStep (cur, pre ++ [(cur, buf)])).2.map Prod.snd, b ≠ []) := by
  induction lines with
  | nil =>
    intro cur pre buf _ _ _ hne
    exact ⟨by simp, hne⟩
  | cons l ls ih =>
    intro cur pre buf hnodup hnew hdist hne
    by_cases hl : isHeading (pyStrip l) = true
    · -- a fresh heading: freeze the current buffer, open a new section
      have hknotin : pyStrip l ∉ (pre ++ [(cur, buf)]).map Prod.fst :=
        hnew l (by simp) hl
      have hstep : segStep (cur, pre ++ [(cur, buf)]) l
          = (pyStrip l, (pre ++ [(cur, buf)]) ++ [(pyStrip l, [l])]) := by
        simp only [segStep, hl, if_true]
        rw [dictSet_of_not_mem _ _ _ hknotin,
          dictGet_append_of_not_mem _ _ _ hknotin]
        simp only [dictGet, if_pos rfl, Option.getD_some, List.nil_append]
        rw [dictSet_append_last _ _ _ _ hknotin]
        simp
      have hdist' : (headingStrips ls).Nodup := by
        rw [headingStrips_cons_pos l ls hl] at hdist
        exact hdist.of_cons
      have hfresh : pyStrip l ∉ headingStrips ls := by
        rw [headingStrips_cons_pos l ls hl] at hdist
        exact (List.nodup_cons.mp hdist).1
      have hnodup' : (((pre ++ [(cur, buf)]) ++ [(pyStrip l, [l])]).map Prod.fst).Nodup := by
        rw [List.map_append]
        rw [List.nodup_append]
        refine ⟨hnodup, List.nodup_singleton _, ?_⟩
        intro a ha hb
        simp only [List.map_cons, List.map_nil, List.mem_singleton] at hb
        subst hb
        exact hknotin ha
      have hnew' : ∀ x ∈ ls, isHeading (pyStrip x) = true →
          pyStrip x ∉ ((pre ++ [(cur, buf)]) ++ [(pyStrip l, [l])]).map Prod.fst := by
        intro x hx hhx
        rw [List.map_append]
        rw [List.mem_append]
        push_neg
        refine ⟨hnew x (by simp [hx]) hhx, ?_⟩
        simp only [List.map_cons, List.map_nil, List.mem_singleton]
        intro heq
        exact hfresh (heq ▸ mem_headingStrips x ls hx hhx)
      have hne' : ∀ b ∈ ((pre ++ [(cur, buf)]) ++ [(pyStrip l, [l])]).map Prod.snd, b ≠ [] := by
        intro b hb
        rw [List.map_append, List.mem_append] at hb
        rcases hb with hb | hb
        · exact hne b hb
        · simp only [List.map_cons, List.map_nil, List.mem_singleton] at hb
          subst hb
          simp
      obtain ⟨hflat, hne2⟩ := ih (pyStrip l) (pre ++ [(cur, buf)]) [l] hnodup' hnew' hdist' hne'
      rw [List.foldl_cons, hstep]
      constructor
      · rw [hflat]
        simp [List.append_assoc]
      · exact hne2
    · -- an ordinary line: append it to the current (last) buffer
      have hlf : isHeading (pyStrip l) = false := by
        simpa using hl
      have hcurpre : cur ∉ pre.map Prod.fst := by
        rw [List.map_append, List.nodup_append] at hnodup
        intro hc
        exact hnodup.2.2 hc (by simp)
      have hstep : segStep (cur, pre ++ [(cur, buf)]) l
          = (cur, pre ++ [(cur, buf ++ [l])]) := by
        simp only [segStep, hlf, Bool.false_eq_true, if_false]
        rw [dictGet_append_of_not_mem _ _ _ hcurpre]
        simp [dictGet, dictSet_append_last _ _ _ _ hcurpre]
      have hkeys : (pre ++ [(cur, buf ++ [l])]).map Prod.fst
          = (pre ++ [(cur, buf)]).map Prod.fst := by
        simp
      have hnodup' : ((pre ++ [(cur, buf ++ [l])]).map Prod.fst).Nodup := by
        rw [hkeys]; exact hnodup
      have hnew' : ∀ x ∈ ls, isHeading (pyStrip x) = true →
          pyStrip x ∉ (pre ++ [(cur, buf ++ [l])]).map Prod.fst := by
        intro x hx hhx
        rw [hkeys]
        exact hnew x (by simp [hx]) hhx
      have hdist' : (headingStrips ls).Nodup := by
        rw [headingStrips_cons_neg l ls hlf] at hdist
        exact hdist
      have hne' : ∀ b ∈ (pre ++ [(cur, buf ++ [l])]).map Prod.snd, b ≠ [] := by
        intro b hb
        rw [List.map_append, List.mem_append] at hb
        rcases hb with hb | hb
        · exact hne b (by rw [List.map_append, List.mem_append]; exact Or.inl hb)
        · simp only [List.map_cons, List.map_nil, List.mem_singleton] at hb
          subst hb
          simp
      obtain ⟨hflat, hne2⟩ := ih cur pre (buf ++ [l]) hnodup' hnew' hdist' hne'
      rw [List.foldl_cons, hstep]
      constructor
      · rw [hflat]
        simp [List.append_assoc]
      · exact hne2

theorem joinNL_cons_cons (s a : String) (t : List String) :
    joinNL (s :: a :: t) = s ++ "\n" ++ joinNL (a :: t) := rfl

theorem joinNL_append (xs ys : List String) (hx : xs ≠ []) (hy : ys ≠ []) :
    joinNL (xs ++ ys) = joinNL xs ++ "\n" ++ joinNL ys := by
  induction xs with
  | nil => exact absurd rfl hx
  | cons a t ih =>
    cases t with
    | nil =>
      cases ys with
      | nil => exact absurd rfl hy
      | cons b u => simp [joinNL_cons_cons, joinNL]
    | cons b u =>
      have hrec := ih (by simp)
      rw [List.cons_append, joinNL_cons_cons]
      rw [List.cons_append] at hrec ⊢
      rw [joinNL_cons_cons, hrec]
      simp [String.append_assoc]

theorem flatten_ne_nil_of_mem (b : List String) (t : List (List String))
    (hb : b ≠ []) (hm : b ∈ t) : t.flatten ≠ [] := by
  induction t with
  | nil => cases hm
  | cons c u ih =>
    rcases List.mem_cons.mp hm with h | h
    · subst h
      cases b with
      | nil => exact absurd rfl hb
      | cons y ys => simp
    · rw [List.flatten_cons]
      intro hcontra
      rcases List.append_eq_nil.mp hcontra with ⟨_, h2⟩
      exact ih h h2

theorem joinNL_flatten (bufs : List (List String)) (h : ∀ b ∈ bufs, b ≠ []) :
    joinNL (bufs.map joinNL) = joinNL bufs.flatten := by
  induction bufs with
  | nil => rfl
  | cons b rest ih =>
    cases rest with
    | nil => simp [joinNL]
    | cons c t =>
      have hb : b ≠ [] := h b (by simp)
      have hrest : ∀ x ∈ c :: t, x ≠ [] := fun x hx => h x (by simp [hx])
      have hflat : (c :: t).flatten ≠ [] :=
        flatten_ne_nil_of_mem c (c :: t) (hrest c (by simp)) (by simp)
      calc joinNL ((b :: c :: t).map joinNL)
          = joinNL b ++ "\n" ++ joinNL ((c :: t).map joinNL) := by
            simp only [List.map_cons]
            exact joinNL_cons_cons _ _ _
        _ = joinNL b ++ "\n" ++ joinNL (c :: t).flatten := by rw [ih hrest]
        _ = joinNL (b ++ (c :: t).flatten) := (joinNL_append b _ hb hflat).symm
        _ = joinNL (b :: c :: t).flatten := by simp

/-- Claim C1 (amended): the reconstruction invariant holds only for
documents whose heading-candidate lines have pairwise-distinct trimmed
texts and whose first line (when one exists) is not itself a heading
candidate.  Under those hypotheses the concatenation of the section values
in section order, joined by newline, equals the newline-normalized input,
and the section line-buffers flatten to exactly the input's lines (each
line in exactly one section).  As stated the claim is false: a repeated
heading discards the lines collected under its first occurrence, and a
document starting with a heading leaves the mandatory `"Header"` section
empty, which inserts a spurious empty line into the concatenation (see the
counterexample). -/
theorem c1_amended (text : String)
    (hdist : (headingStrips (pySplitlines text)).Nodup)
    (hfirst : (pySplitlines text).head?.all (fun l => !isHeading (pyStrip l)) = true) :
    joinNL ((segment_document text).map Prod.snd) = joinNL (pySplitlines text)
    ∧ ((segmentBuffers text).map Prod.snd).flatten = pySplitlines text := by
  have hmap : (segment_document text).map Prod.snd
      = ((segmentBuffers text).map Prod.snd).map joinNL := by
    unfold segment_document
    simp [List.map_map, Function.comp]
  cases hsplit : pySplitlines text with
  | nil =>
    have hbuf : segmentBuffers text = [("Header", [])] := by
      unfold segmentBuffers
      rw [hsplit]
      rfl
    constructor
    · rw [hmap, hbuf]; rfl
    · rw [hbuf]; rfl
  | cons l0 rest =>
    have hl0 : isHeading (pyStrip l0) = false := by
      rw [hsplit] at hfirst
      simpa using hfirst
    have hstep0 : segStep ("Header", [("Header", [])]) l0
        = ("Header", [("Header", [l0])]) := by
      simp [segStep, hl0, dictGet, dictSet]
    have hbuf : segmentBuffers text
        = (rest.foldl segStep ("Header", [] ++ [("Header", [l0])])).2 := by
      unfold segmentBuffers
      rw [hsplit, List.foldl_cons, hstep0]
      simp
    have hdist' : (headingStrips rest).Nodup := by
      rw [hsplit, headingStrips_cons_neg l0 rest hl0] at hdist
      exact hdist
    have hnew : ∀ l ∈ rest, isHeading (pyStrip l) = true →
        pyStrip l ∉ ([] ++ [("Header", [l0])] : List (String × List String)).map Prod.fst := by
      intro l _ hh
      simp only [List.nil_append, List.map_cons, List.map_nil, List.mem_singleton]
      intro heq
      rw [heq] at hh
      exact absurd hh (by rw [isHeading_header]; simp)
    have hinv := seg_step_inv rest "Header" [] [l0]
      (by simp) hnew hdist' (by simp)
    obtain ⟨hflat, hne⟩ := hinv
    have hflat' : ((segmentBuffers text).map Prod.snd).flatten = l0 :: rest := by
      rw [hbuf, hflat]
      simp
    have hne' : ∀ b ∈ (segmentBuffers text).map Prod.snd, b ≠ [] := by
      rw [hbuf]
      exact hne
    refine ⟨?_, hflat'⟩
    rw [hmap, joinNL_flatten _ hne', hflat']

/-- Claim C1, as stated, is false: with the repeated heading
`"Summary:"` the line `"a"` collected under the first occurrence is
discarded, and the empty `"Header"` section contributes a spurious leading
empty line, so the concatenation of section values does not reconstruct
the input. -/
theorem c1_counterexample :
    joinNL ((segment_document "Summary:\na\nSummary:\nb").map Prod.snd)
      ≠ "Summary:\na\nSummary:\nb"
    ∧ ((segmentBuffers "Summary:\na\nSummary:\nb").map Prod.snd).flatten
      ≠ pySplitlines "Summary:\na\nSummary:\nb" := by
  decide

theorem c1_amended_witness :
    joinNL ((segment_document "hello\n1. A\nworld").map Prod.snd)
      = joinNL (pySplitlines "hello\n1. A\nworld")
    ∧ ((segmentBuffers "hello\n1. A\nworld").map Prod.snd).flatten
      = pySplitlines "hello\n1. A\nworld" :=
  c1_amended "hello\n1. A\nworld" (by decide) (by decide)

/-! ### Claim C9: repeated headings -/

/-- While the current section differs from `H` and no heading of the
remaining lines strips to `H`, the scan never touches the entry at `H`
and never makes `H` current. -/
theorem foldl_segStep_preserve (ls : List String) :
    ∀ (cur : String) (segs : List (String × List String)) (H : String),
    cur ≠ H →
    (∀ l ∈ ls, isHeading (pyStrip l) = true → pyStrip l ≠ H) →
    dictGet (ls.foldl segStep (cur, segs)).2 H = dictGet segs H
    ∧ (ls.foldl segStep (cur, segs)).1 ≠ H := by
  induction ls with
  | nil => intro cur segs H hcur _; exact ⟨rfl, hcur⟩
  | cons l ls ih =>
    intro cur segs H hcur h
    by_cases hl : isHeading (pyStrip l) = true
    · have hk : pyStrip l ≠ H := h l (by simp) hl
      have hstep : segStep (cur, segs) l
          = (pyStrip l, dictSet (dictSet segs (pyStrip l) []) (pyStrip l)
              ((dictGet (dictSet segs (pyStrip l) []) (pyStrip l)).getD [] ++ [l])) := by
        simp [segStep, hl]
      rw [List.foldl_cons, hstep]
      obtain ⟨h1, h2⟩ := ih (pyStrip l) _ H hk (fun x hx => h x (by simp [hx]))
      refine ⟨?_, h2⟩
      rw [h1, dictGet_dictSet_ne _ _ _ _ hk, dictGet_dictSet_ne _ _ _ _ hk]
    · have hlf : isHeading (pyStrip l) = false := by simpa using hl
      have hstep : segStep (cur, segs) l
          = (cur, dictSet segs cur ((dictGet segs cur).getD [] ++ [l])) := by
        simp [segStep, hlf]
      rw [List.foldl_cons, hstep]
      obtain ⟨h1, h2⟩ := ih cur _ H hcur (fun x hx => h x (by simp [hx]))
      refine ⟨?_, h2⟩
      rw [h1, dictGet_dictSet_ne _ _ _ _ hcur]

/-- When the scan stands on section `H`, the lines up to the next heading
are appended to `H`'s buffer, and once a (different) heading appears the
buffer at `H` is final. -/
theorem foldl_segStep_run (ls : List String) :
    ∀ (segs : List (String × List String)) (H : String) (buf : List String),
    dictGet segs H = some buf →
    (∀ l ∈ ls, isHeading (pyStrip l) = true → pyStrip l ≠ H) →
    dictGet (ls.foldl segStep (H, segs)).2 H
      = some (buf ++ ls.takeWhile (fun l => !isHeading (pyStrip l))) := by
  induction ls with
  | nil => intro segs H buf hget _; simpa using hget
  | cons l ls ih =>
    intro segs H buf hget h
    by_cases hl : isHeading (pyStrip l) = true
    · have hk : pyStrip l ≠ H := h l (by simp) hl
      have hstep : segStep (H, segs) l
          = (pyStrip l, dictSet (dictSet segs (pyStrip l) []) (pyStrip l)
              ((dictGet (dictSet segs (pyStrip l) []) (pyStrip l)).getD [] ++ [l])) := by
        simp [segStep, hl]
      rw [List.foldl_cons, hstep]
      obtain ⟨h1, _⟩ := foldl_segStep_preserve ls (pyStrip l) _ H hk
        (fun x hx => h x (by simp [hx]))
      rw [h1, dictGet_dictSet_ne _ _ _ _ hk, dictGet_dictSet_ne _ _ _ _ hk, hget]
      simp [List.takeWhile_cons, hl]
    · have hlf : isHeading (pyStrip l) = false := by simpa using hl
      have hstep : segStep (H, segs) l
          = (H, dictSet segs H (buf ++ [l])) := by
        simp [segStep, hlf, hget]
      rw [List.foldl_cons, hstep]
      rw [ih _ H (buf ++ [l]) (dictGet_dictSet_self _ _ _)
        (fun x hx => h x (by simp [hx]))]
      simp [List.takeWhile_cons, hlf]

/-- Claim C9: in a document whose lines are `A ++ [l1] ++ B ++ [l2] ++ C`
where `l1` and `l2` both strip to the same heading text `H` (and no other
heading in the document strips to `H`), the section keyed `H` returned by
`segment_document` holds only the second heading occurrence `l2` followed
by the lines of `C` up to the next heading; everything collected between
`l1` and `l2` (the first occurrence's content) is discarded. -/
theorem c9_repeated_heading (text : String) (A B C : List String)
    (l1 l2 H : String)
    (htext : pySplitlines text = A ++ l1 :: (B ++ l2 :: C))
    (_hh1 : pyStrip l1 = H) (hh2 : pyStrip l2 = H) (hH : isHeading H = true)
    (_hA : ∀ l ∈ A, isHeading (pyStrip l) = true → pyStrip l ≠ H)
    (_hB : ∀ l ∈ B, isHeading (pyStrip l) = true → pyStrip l ≠ H)
    (hC : ∀ l ∈ C, isHeading (pyStrip l) = true → pyStrip l ≠ H) :
    dictGet (segment_document text) H
      = some (joinNL (l2 :: C.takeWhile (fun l => !isHeading (pyStrip l)))) := by
  unfold segment_document
  rw [dictGet_map]
  unfold segmentBuffers
  rw [htext]
  rw [List.foldl_append, List.foldl_cons, List.foldl_append, List.foldl_cons]
  have hstep2 : ∀ st : String × List (String × List String),
      segStep st l2 = (H, dictSet (dictSet st.2 H []) H ([] ++ [l2])) := by
    intro st
    simp [segStep, hh2, hH, dictGet_dictSet_self]
  rw [hstep2]
  rw [foldl_segStep_run C _ H ([] ++ [l2]) (dictGet_dictSet_self _ _ _) hC]
  simp

theorem c9_repeated_heading_witness :
    dictGet (segment_document "x\nSummary:\na\nSummary:\nb") "Summary:"
      = some (joinNL ("Summary:" :: (["b"].takeWhile (fun l => !isHeading (pyStrip l))))) :=
  c9_repeated_heading "x\nSummary:\na\nSummary:\nb" ["x"] ["a"] ["b"]
    "Summary:" "Summary:" "Summary:"
    (by decide) (by decide) (by decide) (by decide) (by decide) (by decide) (by decide)

/-! ### Oracle-response parsing: the last occurrence of each prefix wins -/

theorem listStartsWith_total (l : List Char) :
    ∀ t1 t2 : List Char, listStartsWith l t1 = true → listStartsWith l t2 = true →
    listStartsWith t1 t2 = true ∨ listStartsWith t2 t1 = true := by
  induction l with
  | nil =>
    intro t1 t2 h1 h2
    cases t1 with
    | nil => right; cases t2 <;> rfl
    | cons a u => cases h1
  | cons c cs ih =>
    intro t1 t2 h1 h2
    cases t1 with
    | nil => right; cases t2 <;> rfl
    | cons d1 u1 =>
      cases t2 with
      | nil => left; rfl
      | cons d2 u2 =>
        simp only [listStartsWith, Bool.and_eq_true, beq_iff_eq] at h1 h2
        obtain ⟨hc1, h1'⟩ := h1
        obtain ⟨hc2, h2'⟩ := h2
        rcases ih u1 u2 h1' h2' with h | h
        · left
          subst hc1; subst hc2
          simp [listStartsWith, h]
        · right
          subst hc1; subst hc2
          simp [listStartsWith, h]

theorem lineHasTag_excl (t1 t2 l : String)
    (h12 : listStartsWith t1.data t2.data = false)
    (h21 : listStartsWith t2.data t1.data = false)
    (h : lineHasTag t1 l = true) : lineHasTag t2 l = false := by
  by_contra hc
  have h2 : lineHasTag t2 l = true := by
    revert hc
    cases lineHasTag t2 l <;> simp
  rcases listStartsWith_total (pyLower l).data t1.data t2.data h h2 with ht | ht
  · rw [h12] at ht; cases ht
  · rw [h21] at ht; cases ht

theorem oracleStep_status (st : ParsedOracle) (l : String) :
    (oracleStep st l).status
      = if lineHasTag "status:" l then fieldVal l else st.status := by
  unfold oracleStep
  by_cases h1 : lineHasTag "status:" l = true
  · simp [h1]
  · simp [h1, apply_ite ParsedOracle.status]

theorem oracleStep_reason (st : ParsedOracle) (l : String) :
    (oracleStep st l).reason
      = if lineHasTag "reason:" l then fieldVal l else st.reason := by
  unfold oracleStep
  by_cases h1 : lineHasTag "status:" l = true
  · have h2 : lineHasTag "reason:" l = false :=
      lineHasTag_excl "status:" "reason:" l (by decide) (by decide) h1
    simp [h1, h2]
  · by_cases h2 : lineHasTag "reason:" l = true
    · simp [h1, h2]
    · simp [h1, h2, apply_ite ParsedOracle.reason]

theorem oracleStep_remediation (st : ParsedOracle) (l : String) :
    (oracleStep st l).remediation
      = if lineHasTag "remediation:" l then fieldVal l else st.remediation := by
  unfold oracleStep
  by_cases h1 : lineHasTag "status:" l = true
  · have h3 : lineHasTag "remediation:" l = false :=
      lineHasTag_excl "status:" "remediation:" l (by decide) (by decide) h1
    simp [h1, h3]
  · by_cases h2 : lineHasTag "reason:" l = true
    · have h3 : lineHasTag "remediation:" l = false :=
        lineHasTag_excl "reason:" "remediation:" l (by decide) (by decide) h2
      simp [h1, h2, h3]
    · by_cases h3 : lineHasTag "remediation:" l = true
      · simp [h1, h2, h3]
      · simp [h1, h2, h3, apply_ite ParsedOracle.remediation]

theorem oracleStep_pct (st : ParsedOracle) (l : String) :
    (oracleStep st l).match_percent
      = if lineHasTag "match percentage:" l then pctLineVal l else st.match_percent := by
  unfold oracleStep
  by_cases h1 : lineHasTag "status:" l = true
  · have h4 : lineHasTag "match percentage:" l = false :=
      lineHasTag_excl "status:" "match percentage:" l (by decide) (by decide) h1
    simp [h1, h4]
  · by_cases h2 : lineHasTag "reason:" l = true
    · have h4 : lineHasTag "match percentage:" l = false :=
        lineHasTag_excl "reason:" "match percentage:" l (by decide) (by decide) h2
      simp [h1, h2, h4]
    · by_cases h3 : lineHasTag "remediation:" l = true
      · have h4 : lineHasTag "match percentage:" l = false :=
          lineHasTag_excl "remediation:" "match percentage:" l (by decide) (by decide) h3
        simp [h1, h2, h3, h4]
      · by_cases h4 : lineHasTag "match percentage:" l = true
        · simp [h1, h2, h3, h4]
        · simp [h1, h2, h3, h4]

theorem foldl_oracleStep_eq (lines : List String) :
    ∀ st : ParsedOracle,
    lines.foldl oracleStep st =
      { status := lastUpd (lineHasTag "status:") fieldVal st.status lines,
        reason := lastUpd (lineHasTag "reason:") fieldVal st.reason lines,
        remediation := lastUpd (lineHasTag "remediation:") fieldVal st.remediation lines,
        match_percent := lastUpd (lineHasTag "match percentage:") pctLineVal st.match_percent lines } := by
  induction lines with
  | nil => intro st; rfl
  | cons l ls ih =>
    intro st
    rw [List.foldl_cons, ih (oracleStep st l)]
    rw [oracleStep_status, oracleStep_reason, oracleStep_remediation, oracleStep_pct]
    rfl

theorem lastUpd_eq_getLast (p : String → Bool) (f : String → α) (ls : List String) :
    ∀ d : α, lastUpd p f d ls =
      (match (ls.filter p).getLast? with
        | some l => f l
        | none => d) := by
  induction ls with
  | nil => intro d; rfl
  | cons l ls ih =>
    intro d
    by_cases hp : p l = true
    · show lastUpd p f (if p l then f l else d) ls = _
      rw [if_pos hp, ih]
      rw [List.filter_cons, if_pos hp]
      cases hfilter : ls.filter p with
      | nil => simp [hfilter]
      | cons x xs =>
        rw [List.getLast?_cons_cons]
        cases hlast : (x :: xs).getLast? with
        | none => simp at hlast
        | some y => simp [hlast]
    · have hpf : p l = false := by simpa using hp
      show lastUpd p f (if p l then f l else d) ls = _
      rw [if_neg (by simp [hpf]), ih]
      rw [List.filter_cons, if_neg (by simp [hpf])]

/-- The parsing loop of `compare_segments` described field by field: each
of the four fields is determined by the last response line carrying its
prefix (or the default when no line does); an empty remediation is
replaced by the fixed fallback afterwards. -/
theorem parseOracle_fields (resp : String) :
    parseOracle resp =
      { status := oracleStatusOf resp, reason := oracleReasonOf resp,
        remediation := oracleRemediationOf resp, match_percent := oraclePctOf resp } := by
  unfold parseOracle oracleStatusOf oracleReasonOf oracleRemediationOf oraclePctOf lastTagged
  rw [foldl_oracleStep_eq]
  rw [lastUpd_eq_getLast, lastUpd_eq_getLast, lastUpd_eq_getLast, lastUpd_eq_getLast]
  cases hrem : ((pySplitlines resp).filter (lineHasTag "remediation:")).getLast? with
  | none => simp
  | some l =>
    by_cases hv : fieldVal l = ""
    · simp [hv]
    · simp [hv]

/-! ### Claims C2-C8: the comparison records -/

/-- Claim C3 (amended): the oracle response is parsed line by line with
each recognized prefix overwriting its field, so it is the LAST occurrence
of each recognized field prefix (not the first, as the claim states) that
determines the parsed value; an absent prefix leaves the default
(`"Other Issue"` / `""` / `"None provided."` / `0`). -/
theorem c3_amended (resp : String) :
    parseOracle resp =
      { status := oracleStatusOf resp, reason := oracleReasonOf resp,
        remediation := oracleRemediationOf resp, match_percent := oraclePctOf resp } :=
  parseOracle_fields resp

/-- Claim C3, as stated, is false: with two `Status:` lines the parsed
status is the value of the second (last) occurrence, so the later
occurrence did change the parsed field value. -/
theorem c3_counterexample :
    (compareRecord "a" "b" "Status: Sufficient\nStatus: Lacking Information").1.status
      = "Lacking Information"
    ∧ "Lacking Information" ≠ "Sufficient" := by
  decide

/-- Claim C2 (amended): in the oracle-judgment branch the stored status is
the trimmed text after the colon of the LAST `status:` line of the
response, verbatim and unvalidated; only when no `status:` line exists
does it default to `"Other Issue"`.  The code never checks membership in
the `Sufficient` / `Lacking Information` / `Other Issue` taxonomy. -/
theorem c2_amended (content filledContent resp : String)
    (h1 : pyStrip filledContent ≠ "") (h2 : pyStrip filledContent ≠ pyStrip content) :
    (compareRecord content filledContent resp).1.status = oracleStatusOf resp := by
  unfold compareRecord
  rw [if_neg h1, if_neg h2]
  rw [parseOracle_fields]

theorem c2_amended_witness :
    (compareRecord "a" "b" "Status: Sufficient").1.status
      = oracleStatusOf "Status: Sufficient" :=
  c2_amended "a" "b" "Status: Sufficient" (by decide) (by decide)

/-- Claim C2, as stated, is false: the oracle response
`"Status: Banana"` makes `compare_segments` store the unrecognized token
`"Banana"`, which is none of the three taxonomy values (nor `Missing`). -/
theorem c2_counterexample :
    (compareRecord "a" "b" "Status: Banana").1.status = "Banana"
    ∧ "Banana" ≠ "Sufficient" ∧ "Banana" ≠ "Lacking Information"
    ∧ "Banana" ≠ "Other Issue" ∧ "Banana" ≠ "Missing" := by
  decide

/-- Claim C4 (amended): `match_percent` is an integer that is bounded by
0 and 100 in the `Missing` and exact-match branches, and in the oracle
branch equals the UNCLAMPED integer parsed from the last
`match percentage:` line; the invariant therefore holds exactly when every
oracle response's parsed percentage lies within 0-100 (the code never
clamps, see the counterexample). -/
theorem c4_amended (template filled : List (String × String))
    (oracle : String → String → String)
    (hor : ∀ c f : String, 0 ≤ oraclePctOf (oracle c f) ∧ oraclePctOf (oracle c f) ≤ 100)
    (e : String × ComparisonRecord) (he : e ∈ compare_segments template filled oracle) :
    0 ≤ e.2.match_percent ∧ e.2.match_percent ≤ 100 := by
  unfold compare_segments at he
  rcases List.mem_map.mp he with ⟨sc, hsc, hform⟩
  subst hform
  simp only
  unfold compareRecord
  by_cases hm : pyStrip ((dictGet filled sc.1).getD "") = ""
  · rw [if_pos hm]
    exact ⟨le_refl 0, by norm_num⟩
  · rw [if_neg hm]
    by_cases hx : pyStrip ((dictGet filled sc.1).getD "") = pyStrip sc.2
    · rw [if_pos hx]
      exact ⟨by norm_num, le_refl 100⟩
    · rw [if_neg hx]
      simp only [parseOracle_fields]
      exact hor sc.2 ((dictGet filled sc.1).getD "")

theorem c4_amended_witness :
    0 ≤ (⟨"a", "b", "Other Issue", "", "None provided.", 85⟩ : ComparisonRecord).match_percent
    ∧ (⟨"a", "b", "Other Issue", "", "None provided.", 85⟩ : ComparisonRecord).match_percent ≤ 100 :=
  c4_amended [("S", "a")] [("S", "b")] (fun _ _ => "Match Percentage: 85")
    (fun c f => by
      show 0 ≤ oraclePctOf "Match Percentage: 85"
        ∧ oraclePctOf "Match Percentage: 85" ≤ 100
      decide)
    ("S", ⟨"a", "b", "Other Issue", "", "None provided.", 85⟩) (by decide)

/-- Claim C4, as stated, is false: the oracle response
`"Match Percentage: 150"` is stored unclamped, producing a
`match_percent` outside 0-100. -/
theorem c4_counterexample :
    (compareRecord "a" "b" "Match Percentage: 150").1.match_percent = 150
    ∧ ¬ (compareRecord "a" "b" "Match Percentage: 150").1.match_percent ≤ 100 := by
  decide

/-- Claim C6 (amended): a blank (empty or whitespace-only) filled text
always yields status `Missing` with `match_percent = 0`; the claimed
converse direction fails, because in the oracle branch the unvalidated
response token is stored verbatim and can itself be `"Missing"` for a
non-blank filled text (see the counterexample). -/
theorem c6_amended (content filledContent resp : String)
    (h : pyStrip filledContent = "") :
    (compareRecord content filledContent resp).1.status = "Missing"
    ∧ (compareRecord content filledContent resp).1.match_percent = 0 := by
  unfold compareRecord
  rw [if_pos h]
  exact ⟨rfl, rfl⟩

theorem c6_amended_witness :
    (compareRecord "x" "  " "resp").1.status = "Missing"
    ∧ (compareRecord "x" "  " "resp").1.match_percent = 0 :=
  c6_amended "x" "  " "resp" (by decide)

/-- Claim C6, as stated, is false: the oracle response `"Status: Missing"`
on a non-blank filled text produces a record whose status is `Missing` and
whose `match_percent` is 0 while the filled text is NOT blank, refuting the
claimed equivalence at this record. -/
theorem c6_counterexample :
    ¬ ((compareRecord "a" "b" "Status: Missing").1.status = "Missing"
        ↔ (compareRecord "a" "b" "Status: Missing").1.match_percent = 0
          ∧ pyStrip (compareRecord "a" "b" "Status: Missing").1.filled = "") := by
  decide

/-- Claim C7 (amended): a non-blank filled text that trims identically to
the template text yields status `Sufficient`, `match_percent = 100`, the
fixed analysis text, and remediation `"None needed."` (the source string
carries a trailing period, unlike the claim's `"None needed"`), with zero
oracle invocations for that section. -/
theorem c7_amended (content filledContent resp : String)
    (h1 : pyStrip filledContent ≠ "") (h2 : pyStrip filledContent = pyStrip content) :
    compareRecord content filledContent resp =
      (⟨content, filledContent, "Sufficient",
        "This section is sufficiently filled and matches the template.",
        "None needed.", 100⟩, 0) := by
  unfold compareRecord
  rw [if_neg h1, if_pos h2]

theorem c7_amended_witness :
    compareRecord "a" " a " "ignored" =
      (⟨"a", " a ", "Sufficient",
        "This section is sufficiently filled and matches the template.",
        "None needed.", 100⟩, 0) :=
  c7_amended "a" " a " "ignored" (by decide) (by decide)

/-- Claim C7, as stated, is false only in the remediation string: the
section `(template "a", filled " a ")` is in the claim's scope (non-blank,
trim-identical) but its remediation is `"None needed."`, not the claimed
`"None needed"`. -/
theorem c7_counterexample :
    pyStrip " a " ≠ "" ∧ pyStrip " a " = pyStrip "a"
    ∧ (compareRecord "a" " a " "ignored").1.remediation ≠ "None needed" := by
  decide

/-- Claim C8: a template section whose filled counterpart is absent from
the filled map (lookup defaulting to `""`) or blank after trimming yields
status `Missing`, `match_percent = 0`, the fixed analysis and remediation
texts, and zero oracle invocations for that section. -/
theorem c8_missing (filled : List (String × String)) (sec content resp : String)
    (h : dictGet filled sec = none ∨ pyStrip ((dictGet filled sec).getD "") = "") :
    compareRecord content ((dictGet filled sec).getD "") resp =
      (⟨content, (dictGet filled sec).getD "", "Missing",
        "This section is missing in the filled document.",
        "Please provide content for this section.", 0⟩, 0) := by
  have hb : pyStrip ((dictGet filled sec).getD "") = "" := by
    rcases h with h | h
    · rw [h]; decide
    · exact h
  unfold compareRecord
  rw [if_pos hb]

theorem c8_missing_witness :
    compareRecord "c" ((dictGet [("A", "x")] "B").getD "") "resp" =
      (⟨"c", (dictGet [("A", "x")] "B").getD "", "Missing",
        "This section is missing in the filled document.",
        "Please provide content for this section.", 0⟩, 0) :=
  c8_missing [("A", "x")] "B" "c" "resp" (Or.inl (by decide))

/-- Claim C5 (amended): on the spec's end-to-end scenario the report has
exactly THREE entries, not two: besides `"1. Scope:"` (Sufficient, 100) and
`"2. Budget:"` (Missing, 0), the segmentation of both documents always
contains the `"Header"` section (empty in both), which compares as
Missing with `match_percent = 0`. -/
theorem c5_amended :
    compare_segments (segment_document c5Template) (segment_document c5Filled)
        (fun _ _ => "") =
      [("Header", ⟨"", "", "Missing",
          "This section is missing in the filled document.",
          "Please provide content for this section.", 0⟩),
       ("1. Scope:", ⟨"1. Scope:\nDescribe the work.", "1. Scope:\nDescribe the work.",
          "Sufficient", "This section is sufficiently filled and matches the template.",
          "None needed.", 100⟩),
       ("2. Budget:", ⟨"2. Budget:\nState the amount.", "", "Missing",
          "This section is missing in the filled document.",
          "Please provide content for this section.", 0⟩)] := by
  decide

/-- Claim C5, as stated, is false: the report of the end-to-end scenario
has three entries (the ever-present `"Header"` section included), not
exactly two. -/
theorem c5_counterexample :
    ((compare_segments (segment_document c5Template) (segment_document c5Filled)
        (fun _ _ => "")).map Prod.fst) = ["Header", "1. Scope:", "2. Budget:"]
    ∧ (compare_segments (segment_document c5Template) (segment_document c5Filled)
        (fun _ _ => "")).length ≠ 2 := by
  decide
